import Mathlib

/-!
Verification development for the standup-notes migration and repair scripts
(`scripts/backfill-standup-notes.py` and `scripts/fix-existing-standup-docs.py`).

The pure parts of the scripts (formatting, state handling, date parsing) are
translated directly; the effectful parts (the per-item HTTP calls) are modelled
by environments supplying each call's response, and the mutating calls are
recorded in an explicit trace so that frame and idempotence properties can be
stated about them.
-/

/- ---------------------------------------------------------------------------
Python string helpers used by the scripts.
--------------------------------------------------------------------------- -/

/-- The ASCII whitespace characters removed by Python's `str.strip()`. -/
def isPySpace (c : Char) : Bool :=
  c = ' ' || c = '\t' || c = '\n' || c = '\r' || c = '\x0b' || c = '\x0c'

/-- Python `s.strip()` (default whitespace set). -/
def pyStrip (s : String) : String :=
  String.mk (((s.data.dropWhile isPySpace).reverse.dropWhile isPySpace).reverse)

/-- Truthiness test `s and s.strip()` used by fix-existing-standup-docs.py to
decide whether a page has usable content. -/
def pyTruthyStrip (s : String) : Bool :=
  (s != "") && (pyStrip s != "")

/-- Python `s.replace("Z", "+00:00")` (lines 319 and 248 of the two scripts). -/
def replaceZ (s : String) : String :=
  String.mk (s.data.flatMap fun c => if c = 'Z' then "+00:00".data else [c])

/-- Python `"\n".join(l)`. -/
def pyJoin (sep : String) : List String → String
  | [] => ""
  | [x] => x
  | x :: y :: xs => x ++ sep ++ pyJoin sep (y :: xs)

/- ---------------------------------------------------------------------------
Model of `datetime.fromisoformat` (the subset exercised by the scripts:
`YYYY-MM-DD[<sep>HH:MM[:SS[.ffffff]][±HH:MM]]`) and of the `strftime`
directives `%Y-%m-%d` and `%A, %B %-d, %Y` on Linux/glibc.
--------------------------------------------------------------------------- -/

def digitVal (c : Char) : Option Nat :=
  if c.isDigit then some (c.toNat - 48) else none

def dig2 (a b : Char) : Option Nat := do
  let x ← digitVal a
  let y ← digitVal b
  pure (10 * x + y)

def dig4 (a b c d : Char) : Option Nat := do
  let x ← dig2 a b
  let y ← dig2 c d
  pure (100 * x + y)

def isLeap (y : Nat) : Bool :=
  y % 4 == 0 && (y % 100 != 0 || y % 400 == 0)

def daysInMonth (y m : Nat) : Nat :=
  if m = 2 then (if isLeap y then 29 else 28)
  else if m = 4 ∨ m = 6 ∨ m = 9 ∨ m = 11 then 30
  else 31

/-- A parsed Python `datetime`: wall-clock fields plus an optional fixed UTC
offset in minutes (`none` for a naive datetime). -/
structure PyDatetime where
  year : Nat
  month : Nat
  day : Nat
  hour : Nat
  minute : Nat
  second : Nat
  offset : Option Int
deriving DecidableEq, Repr

/-- The `datetime` constructor's range validation. -/
def mkDateTime (y mo dy hh mi ss : Nat) (off : Option Int) : Option PyDatetime :=
  if 1 ≤ y ∧ y ≤ 9999 ∧ 1 ≤ mo ∧ mo ≤ 12 ∧ 1 ≤ dy ∧ dy ≤ daysInMonth y mo
      ∧ hh ≤ 23 ∧ mi ≤ 59 ∧ ss ≤ 59
  then some ⟨y, mo, dy, hh, mi, ss, off⟩ else none

/-- Trailing UTC-offset suffix: empty (naive) or `±HH:MM`. -/
def parseOffset : List Char → Option (Option Int)
  | [] => some none
  | '+' :: a :: b :: ':' :: c :: d :: [] => do
      let hh ← dig2 a b
      let mm ← dig2 c d
      if hh ≤ 23 ∧ mm ≤ 59 then pure (some ((hh : Int) * 60 + (mm : Int))) else none
  | '-' :: a :: b :: ':' :: c :: d :: [] => do
      let hh ← dig2 a b
      let mm ← dig2 c d
      if hh ≤ 23 ∧ mm ≤ 59 then pure (some (-((hh : Int) * 60 + (mm : Int)))) else none
  | _ => none

/-- Fractional-second digits (1 to 6, their value is irrelevant to the claims'
outputs) followed by the offset suffix. -/
def parseFracOffset (l : List Char) : Option (Option Int) :=
  let ds := l.takeWhile Char.isDigit
  let rest := l.dropWhile Char.isDigit
  if 1 ≤ ds.length ∧ ds.length ≤ 6 then parseOffset rest else none

/-- Time portion `HH:MM[:SS[.ffffff]][±HH:MM]`. -/
def parseTime : List Char → Option (Nat × Nat × Nat × Option Int)
  | a :: b :: ':' :: c :: d :: rest => do
      let hh ← dig2 a b
      let mm ← dig2 c d
      match rest with
      | ':' :: e :: f :: rest2 => do
          let ss ← dig2 e f
          match rest2 with
          | '.' :: rest3 => do
              let off ← parseFracOffset rest3
              pure (hh, mm, ss, off)
          | _ => do
              let off ← parseOffset rest2
              pure (hh, mm, ss, off)
      | _ => do
          let off ← parseOffset rest
          pure (hh, mm, 0, off)
  | _ => none

/-- `datetime.fromisoformat`: date, then optionally a one-character separator
and a time portion.  The resulting datetime keeps the wall-clock fields exactly
as written; no normalization to UTC happens here (or anywhere in the scripts). -/
def fromisoformat (s : String) : Option PyDatetime :=
  match s.data with
  | y1 :: y2 :: y3 :: y4 :: '-' :: m1 :: m2 :: '-' :: a :: b :: rest =>
    match dig4 y1 y2 y3 y4, dig2 m1 m2, dig2 a b with
    | some y, some mo, some dy =>
      match rest with
      | [] => mkDateTime y mo dy 0 0 0 none
      | _ :: tl =>
        match parseTime tl with
        | some t => mkDateTime y mo dy t.1 t.2.1 t.2.2.1 t.2.2.2
        | none => none
    | _, _, _ => none
  | _ => none

/-- `%m` / `%d`: zero-padded two-digit rendering. -/
def pad2 (n : Nat) : String :=
  if n < 10 then "0" ++ Nat.repr n else Nat.repr n

/-- `dt.strftime("%Y-%m-%d")`. -/
def isoDateStr (dt : PyDatetime) : String :=
  Nat.repr dt.year ++ "-" ++ pad2 dt.month ++ "-" ++ pad2 dt.day

/-- Day of week of a civil date, 0 = Sunday (Sakamoto's method). -/
def dayOfWeek (y m d : Nat) : Nat :=
  let t := [0, 3, 2, 5, 0, 3, 5, 1, 4, 6, 2, 4]
  let y2 := if m < 3 then y - 1 else y
  (y2 + y2 / 4 - y2 / 100 + y2 / 400 + t.getD (m - 1) 0 + d) % 7

/-- `%A` full weekday names, indexed with 0 = Sunday. -/
def weekdayName : Nat → String
  | 0 => "Sunday"
  | 1 => "Monday"
  | 2 => "Tuesday"
  | 3 => "Wednesday"
  | 4 => "Thursday"
  | 5 => "Friday"
  | _ => "Saturday"

/-- `%B` full month names. -/
def monthName : Nat → String
  | 1 => "January"
  | 2 => "February"
  | 3 => "March"
  | 4 => "April"
  | 5 => "May"
  | 6 => "June"
  | 7 => "July"
  | 8 => "August"
  | 9 => "September"
  | 10 => "October"
  | 11 => "November"
  | 12 => "December"
  | _ => ""

/-- `dt.strftime("%A, %B %-d, %Y")`: `%-d` is the glibc no-padding form of the
day of month, rendered here as `Nat.repr`. -/
def displayDateStr (dt : PyDatetime) : String :=
  weekdayName (dayOfWeek dt.year dt.month dt.day) ++ ", " ++ monthName dt.month
    ++ " " ++ Nat.repr dt.day ++ ", " ++ Nat.repr dt.year

/- ---------------------------------------------------------------------------
The two content formatters (backfill-standup-notes.py `format_doc`, lines
314-336, and fix-existing-standup-docs.py `format_doc_content`, lines 243-262).
`none` models the ValueError raised by `fromisoformat` on a malformed
timestamp, which the callers catch per item.
--------------------------------------------------------------------------- -/

/-- `format_doc(file_name, created_time, text_content)` returning
`(doc_name, description, content)`. -/
def format_doc (file_name created_time text_content : String) :
    Option (String × String × String) :=
  (fromisoformat (replaceZ created_time)).map fun dt =>
    let iso_date := isoDateStr dt
    let display_date := displayDateStr dt
    let doc_name := "Daily Standup — " ++ iso_date
    let description := "Standup notes from Google Meet (" ++ iso_date ++ ")"
    let content := pyJoin "\n"
      ["# " ++ doc_name, "", "**Source:** " ++ file_name,
       "**Date:** " ++ display_date, "", "---", "", text_content]
    (doc_name, description, content)

/-- `format_doc_content(file_name, created_time, text_content)` returning
`(doc_name, content)`. -/
def format_doc_content (file_name created_time text_content : String) :
    Option (String × String) :=
  (fromisoformat (replaceZ created_time)).map fun dt =>
    let iso_date := isoDateStr dt
    let display_date := displayDateStr dt
    let doc_name := "Daily Standup — " ++ iso_date
    let content := pyJoin "\n"
      ["# " ++ doc_name, "", "**Source:** " ++ file_name,
       "**Date:** " ++ display_date, "", "---", "", text_content]
    (doc_name, content)

/- ---------------------------------------------------------------------------
Spec-side definition of UTC normalization, for comparison with what the
formatters actually compute.
--------------------------------------------------------------------------- -/

def prevDay (y m d : Nat) : Nat × Nat × Nat :=
  if 2 ≤ d then (y, m, d - 1)
  else if 2 ≤ m then (y, m - 1, daysInMonth y (m - 1))
  else (y - 1, 12, 31)

def nextDay (y m d : Nat) : Nat × Nat × Nat :=
  if d < daysInMonth y m then (y, m, d + 1)
  else if m < 12 then (y, m + 1, 1)
  else (y + 1, 1, 1)

/-- Modelled from the spec: the Content Formatter is said to "derive a calendar
date (UTC-normalized)" from the timestamp.  This computes the civil date of the
instant after subtracting the timestamp's UTC offset (offsets are strictly
below 24 hours, so at most one day of adjustment is needed).  The scripts
themselves contain no such normalization step. -/
def utcDateOf (dt : PyDatetime) : Nat × Nat × Nat :=
  if (dt.hour : Int) * 60 + (dt.minute : Int) - dt.offset.getD 0 < 0 then
    prevDay dt.year dt.month dt.day
  else if 1440 ≤ (dt.hour : Int) * 60 + (dt.minute : Int) - dt.offset.getD 0 then
    nextDay dt.year dt.month dt.day
  else (dt.year, dt.month, dt.day)

/-- Modelled from the spec: the UTC-normalized calendar date of a timestamp
string, after the scripts' `replace("Z", "+00:00")` preprocessing. -/
def utcCalendarDate (created_time : String) : Option (Nat × Nat × Nat) :=
  (fromisoformat (replaceZ created_time)).map utcDateOf

/- ---------------------------------------------------------------------------
Progress ledger (backfill-standup-notes.py lines 123-137 and 389-391).  The
persisted state file is modelled as `Option (List String)`: `none` when the
file does not exist, otherwise the stored `processed_ids` list.  The in-memory
set is a `List String` with set semantics via `List.insert` / membership.
--------------------------------------------------------------------------- -/

/-- `load_state()`: the stored ids, or the empty set when no file exists. -/
def load_state (fs : Option (List String)) : List String := fs.getD []

/-- Insertion into a `≤`-sorted list of strings. -/
def insortStr (x : String) : List String → List String
  | [] => [x]
  | y :: ys => if x ≤ y then x :: y :: ys else y :: insortStr x ys

/-- `sorted(processed_ids)`. -/
def sortStrings (l : List String) : List String := l.foldr insortStr []

/-- `save_state(processed_ids)`: full overwrite with the sorted ids. -/
def save_state (processed : List String) : Option (List String) :=
  some (sortStrings processed)

/-- `--reset-state`: `STATE_FILE.unlink()` when the file exists; the persisted
record is gone either way. -/
def reset_state (_fs : Option (List String)) : Option (List String) := none

/- ---------------------------------------------------------------------------
Migration planner (backfill-standup-notes.py `main`, lines 386-523).  The
Google Drive listing result is the input `docs` list; the per-item HTTP calls
are answered by a `PlannerEnv`, with `none` standing for a raised
`requests.HTTPError` (caught per item).  Mutating ClickUp calls are recorded
in a `PWrite` trace.
--------------------------------------------------------------------------- -/

/-- One listed Google Drive document (`files(id, name, createdTime, ...)`). -/
structure SourceDoc where
  id : String
  name : String
  createdTime : String
deriving DecidableEq, Repr

/-- Shape of a ClickUp create-doc response as far as `extract_doc_id` looks at
it: an optional `data` dict with its `id`, and an optional top-level `id`. -/
structure CreateResp where
  dataId : Option (Option String)
  topId : Option String
deriving DecidableEq, Repr

/-- `extract_doc_id(result)` (lines 237-244). -/
def extract_doc_id (r : CreateResp) : Option String :=
  match r.dataId with
  | some d => d
  | none => r.topId

/-- A mutating call against the target store. -/
inductive PWrite where
  | createDoc (name description content : String)
  | editPage (docId pageId name content : String)
deriving DecidableEq, Repr

/-- Environment answering the planner's per-item network calls.
`none` models a raised `requests.HTTPError`. -/
structure PlannerEnv where
  exportText : String → Option String
  createResp : String → String → String → Option CreateResp
  pageListing : String → Option (List String)
  editOk : String → String → String → String → Bool

/-- One iteration of the planner's per-item `try` block (lines 439-510):
export, format, create shell, extract id, page listing, edit default page.
Returns whether the full write sequence completed, plus the mutating calls
that were issued. -/
def processItem (env : PlannerEnv) (doc : SourceDoc) : Bool × List PWrite :=
  match env.exportText doc.id with
  | none => (false, [])
  | some text =>
    match format_doc doc.name doc.createdTime text with
    | none => (false, [])
    | some f =>
      let doc_name := f.1
      let description := f.2.1
      let content := f.2.2
      match env.createResp doc_name description content with
      | none => (false, [PWrite.createDoc doc_name description content])
      | some resp =>
        match extract_doc_id resp with
        | none => (false, [PWrite.createDoc doc_name description content])
        | some docId =>
          match env.pageListing docId with
          | none => (false, [PWrite.createDoc doc_name description content])
          | some [] => (false, [PWrite.createDoc doc_name description content])
          | some (pid :: _) =>
            (env.editOk docId pid doc_name content,
             [PWrite.createDoc doc_name description content,
              PWrite.editPage docId pid doc_name content])

/-- Accumulated state of the planner's processing loop. -/
structure LoopState where
  proc : List String
  fs : Option (List String)
  created : Nat
  errors : Nat
  attempted : List String
  writes : List PWrite
deriving Repr

/-- The planner's `for` loop (lines 436-514): on success the id is added to the
in-memory set and the state file saved immediately; on failure nothing is
recorded and the loop continues with the next item. -/
def plannerLoop (env : PlannerEnv) (proc : List String) (fs : Option (List String)) :
    List SourceDoc → LoopState
  | [] => ⟨proc, fs, 0, 0, [], []⟩
  | doc :: rest =>
    let pr := processItem env doc
    if pr.1 then
      let proc2 := proc.insert doc.id
      let r := plannerLoop env proc2 (save_state proc2) rest
      ⟨r.proc, r.fs, r.created + 1, r.errors, doc.id :: r.attempted, pr.2 ++ r.writes⟩
    else
      let r := plannerLoop env proc fs rest
      ⟨r.proc, r.fs, r.created, r.errors + 1, doc.id :: r.attempted, pr.2 ++ r.writes⟩

/-- Observable outcome of one planner invocation. -/
structure PRun where
  fs : Option (List String)
  created : Nat
  skipped : Nat
  errors : Nat
  attempted : List String
  writes : List PWrite
deriving Repr

/-- `main()` of backfill-standup-notes.py: optional state reset, work-queue
construction by set difference against the ledger, dry-run short-circuit, and
the processing loop. -/
def plannerRun (env : PlannerEnv) (dryRun resetState : Bool)
    (docs : List SourceDoc) (fs0 : Option (List String)) : PRun :=
  let fs := if resetState then reset_state fs0 else fs0
  if docs.isEmpty then ⟨fs, 0, 0, 0, [], []⟩
  else
    let processed := load_state fs
    let to_process := docs.filter fun d => decide (d.id ∉ processed)
    let skipped := docs.length - to_process.length
    if to_process.isEmpty then ⟨fs, 0, skipped, 0, [], []⟩
    else if dryRun then ⟨fs, 0, skipped, 0, [], []⟩
    else
      let r := plannerLoop env processed fs to_process
      ⟨r.fs, r.created, skipped, r.errors, r.attempted, r.writes⟩


/- ---------------------------------------------------------------------------
Repair reconciler (fix-existing-standup-docs.py).  The target population is a
concrete list of `TDoc`s (each a ClickUp doc with its ordered pages); reads
return the stored values, mutating PUT calls both update the doc and are
recorded in an `RCall` trace.
--------------------------------------------------------------------------- -/

/-- A ClickUp page: id, name (absent models a response without a `name` key,
for the `page2_detail.get("name", doc_name)` fallback), and content
(`page_detail.get("content", "")`). -/
structure Page where
  id : String
  name : Option String
  content : String
deriving DecidableEq, Repr

/-- A ClickUp doc in the standup folder with its ordered page listing. -/
structure TDoc where
  id : String
  name : String
  pages : List Page
deriving DecidableEq, Repr

/-- The static `KNOWN_DUPLICATES` table (lines 53-61):
`(date, original id, duplicate id)`. -/
def KNOWN_DUPLICATES : List (String × String × String) :=
  [("2026-02-18", "8cr2e8x-1717", "8cr2e8x-1857"),
   ("2026-02-17", "8cr2e8x-1737", "8cr2e8x-1877"),
   ("2026-02-16", "8cr2e8x-1757", "8cr2e8x-1897"),
   ("2026-02-13", "8cr2e8x-1777", "8cr2e8x-1917"),
   ("2026-02-12", "8cr2e8x-1797", "8cr2e8x-1937"),
   ("2026-02-11", "8cr2e8x-1817", "8cr2e8x-1957"),
   ("2026-02-10", "8cr2e8x-1837", "8cr2e8x-1977")]

/-- `dup_ids = {v["duplicate"] for v in KNOWN_DUPLICATES.values()}` (line 352). -/
def dup_ids : List String := KNOWN_DUPLICATES.map fun t => t.2.2

/-- `edit_page(token, doc_id, page_id, name, content)` (lines 136-146): full
replace of the addressed page's name and content. -/
def edit_page (doc : TDoc) (pageId name content : String) : TDoc :=
  { doc with pages := doc.pages.map fun p =>
      if p.id = pageId then { p with name := some name, content := content } else p }

/-- `clear_page(token, doc_id, page_id)` (lines 149-159): neutralize a page
with the duplicate marker name and a single-whitespace body. -/
def clear_page (doc : TDoc) (pageId : String) : TDoc :=
  { doc with pages := doc.pages.map fun p =>
      if p.id = pageId
      then { p with name := some "(duplicate - see page 1)", content := " " }
      else p }

/-- Leftmost 10-character window matching `\d{4}-\d{2}-\d{2}` at this position. -/
def dateAt : List Char → Option String
  | y1 :: y2 :: y3 :: y4 :: '-' :: m1 :: m2 :: '-' :: d1 :: d2 :: _ =>
    if y1.isDigit && y2.isDigit && y3.isDigit && y4.isDigit
        && m1.isDigit && m2.isDigit && d1.isDigit && d2.isDigit
    then some (String.mk [y1, y2, y3, y4, '-', m1, m2, '-', d1, d2])
    else none
  | _ => none

/-- Leftmost match of `\d{4}-\d{2}-\d{2}` anywhere in the character list. -/
def findDate : List Char → Option String
  | [] => none
  | c :: tl =>
    match dateAt (c :: tl) with
    | some s => some s
    | none => findDate tl

/-- `extract_date_from_name(name)` (lines 278-281): `re.search` for an ISO
date substring. -/
def extract_date_from_name (name : String) : Option String := findDate name.data

/-- The `%Y-%m-%d` date a Drive doc's `createdTime` formats to, if it parses
(`build_drive_date_index`, line 272-273). -/
def isoDateOfDoc (d : SourceDoc) : Option String :=
  (fromisoformat (replaceZ d.createdTime)).map isoDateStr

/-- `build_drive_date_index(drive_docs)` (lines 265-275): a date-keyed dict of
Drive docs, later entries overwriting earlier ones.  `none` models the
uncaught ValueError when some `createdTime` does not parse. -/
def build_drive_date_index (docs : List SourceDoc) :
    Option (String → Option SourceDoc) :=
  docs.foldlM
    (fun idx d => (isoDateOfDoc d).map fun k => fun q => if q = k then some d else idx q)
    (fun _ => none)

/-- Run-end counters of the reconciler (fixed / refilled / already-ok /
errors, lines 347-350). -/
structure RCounters where
  fixed : Nat
  refilled : Nat
  already_ok : Nat
  errors : Nat
deriving DecidableEq, Repr

def addC (a b : RCounters) : RCounters :=
  ⟨a.fixed + b.fixed, a.refilled + b.refilled,
   a.already_ok + b.already_ok, a.errors + b.errors⟩

/-- A mutating PUT issued by the reconciler (both `edit_page` and
`clear_page` are page PUTs). -/
inductive RCall where
  | put (docId pageId name content : String)
deriving DecidableEq, Repr

/-- The reconciler's CLI switches. -/
structure RCfg where
  dryRun : Bool
  refill : Bool
deriving DecidableEq, Repr

/-- The fall-through refill block of the loop body (lines 411-439), reached
when page 0 is blank and there is no usable page-1 content: report for manual
refill when `--refill-from-drive` is off, otherwise look up a same-date Drive
doc, short-circuit in dry-run, and else export, reformat and write page 0. -/
def refillStep (cfg : RCfg) (driveIndex : String → Option SourceDoc)
    (driveText : String → String) (doc : TDoc) (p1 : Page) :
    TDoc × RCounters × List RCall :=
  if !cfg.refill then (doc, ⟨0, 0, 1, 0⟩, [])
  else
    match extract_date_from_name doc.name with
    | none => (doc, ⟨0, 0, 0, 1⟩, [])
    | some doc_date =>
      match driveIndex doc_date with
      | none => (doc, ⟨0, 0, 0, 1⟩, [])
      | some drive_doc =>
        if cfg.dryRun then (doc, ⟨0, 1, 0, 0⟩, [])
        else
          match format_doc_content drive_doc.name drive_doc.createdTime
              (driveText drive_doc.id) with
          | none => (doc, ⟨0, 0, 0, 1⟩, [])
          | some f =>
            (edit_page doc p1.id doc.name f.2, ⟨0, 1, 0, 0⟩,
             [RCall.put doc.id p1.id doc.name f.2])

/-- The per-document body of the reconciler's loop (lines 354-449):
skip known duplicates; error when no pages; page 0 with usable content is
already ok; else promote usable page-1 content; else take the refill
fall-through.  Returns the updated doc, this doc's counter contribution, and
the mutating calls issued for it. -/
def reconcileDoc (cfg : RCfg) (driveIndex : String → Option SourceDoc)
    (driveText : String → String) (doc : TDoc) : TDoc × RCounters × List RCall :=
  if doc.id ∈ dup_ids then (doc, ⟨0, 0, 0, 0⟩, [])
  else
    match doc.pages with
    | [] => (doc, ⟨0, 0, 0, 1⟩, [])
    | p1 :: rest =>
      if pyTruthyStrip p1.content then (doc, ⟨0, 0, 1, 0⟩, [])
      else
        match rest with
        | p2 :: _ =>
          if pyTruthyStrip p2.content then
            if cfg.dryRun then (doc, ⟨1, 0, 0, 0⟩, [])
            else
              let name2 := p2.name.getD doc.name
              (clear_page (edit_page doc p1.id name2 p2.content) p2.id,
               ⟨1, 0, 0, 0⟩,
               [RCall.put doc.id p1.id name2 p2.content,
                RCall.put doc.id p2.id "(duplicate - see page 1)" " "])
          else refillStep cfg driveIndex driveText doc p1
        | [] => refillStep cfg driveIndex driveText doc p1

/-- Observable outcome of one reconciler invocation. -/
structure RRun where
  docs : List TDoc
  counters : RCounters
  trace : List RCall
deriving Repr

/-- The reconciler's loop over the listed target docs. -/
def reconcileRun (cfg : RCfg) (driveIndex : String → Option SourceDoc)
    (driveText : String → String) : List TDoc → RRun
  | [] => ⟨[], ⟨0, 0, 0, 0⟩, []⟩
  | doc :: rest =>
    let h := reconcileDoc cfg driveIndex driveText doc
    let r := reconcileRun cfg driveIndex driveText rest
    ⟨h.1 :: r.docs, addC h.2.1 r.counters, h.2.2 ++ r.trace⟩


/- ---------------------------------------------------------------------------
Helper lemmas.
--------------------------------------------------------------------------- -/

lemma mem_insortStr (a x : String) (l : List String) :
    a ∈ insortStr x l ↔ a = x ∨ a ∈ l := by
  induction l with
  | nil => simp [insortStr]
  | cons y ys ih =>
    simp only [insortStr]
    split
    · simp [List.mem_cons]
    · simp only [List.mem_cons, ih]
      tauto

lemma mem_sortStrings (a : String) (l : List String) :
    a ∈ sortStrings l ↔ a ∈ l := by
  induction l with
  | nil => simp [sortStrings]
  | cons x xs ih =>
    simp only [sortStrings, List.foldr_cons] at *
    rw [mem_insortStr]
    simp only [List.mem_cons, ih]

lemma daysInMonth_le_31 (y m : Nat) : daysInMonth y m ≤ 31 := by
  unfold daysInMonth
  split
  · split <;> omega
  · split <;> omega

lemma mkDateTime_eq_some {y mo dy hh mi ss : Nat} {off : Option Int} {dt : PyDatetime}
    (h : mkDateTime y mo dy hh mi ss off = some dt) :
    dt = ⟨y, mo, dy, hh, mi, ss, off⟩ ∧ 1 ≤ y ∧ 1 ≤ mo ∧ mo ≤ 12 ∧ 1 ≤ dy ∧
      dy ≤ 31 ∧ hh ≤ 23 ∧ mi ≤ 59 ∧ ss ≤ 59 := by
  unfold mkDateTime at h
  split at h
  · rename_i hc
    cases h
    have h31 := daysInMonth_le_31 y mo
    exact ⟨rfl, by omega, by omega, by omega, by omega, by omega, by omega, by omega, by omega⟩
  · cases h

lemma fromisoformat_valid {s : String} {dt : PyDatetime}
    (h : fromisoformat s = some dt) :
    1 ≤ dt.year ∧ 1 ≤ dt.month ∧ dt.month ≤ 12 ∧ 1 ≤ dt.day ∧ dt.day ≤ 31 ∧
      dt.hour ≤ 23 ∧ dt.minute ≤ 59 := by
  unfold fromisoformat at h
  split at h
  · split at h
    · split at h
      · obtain ⟨hdt, hb⟩ := mkDateTime_eq_some h
        subst hdt
        simp only
        omega
      · split at h
        · obtain ⟨hdt, hb⟩ := mkDateTime_eq_some h
          subst hdt
          simp only
          omega
        · cases h
    · cases h
  · cases h

lemma mem_dropWhile_of_neg {p : Char → Bool} {c : Char} :
    ∀ {l : List Char}, c ∈ l → p c = false → c ∈ l.dropWhile p := by
  intro l
  induction l with
  | nil => intro h _; cases h
  | cons x xs ih =>
    intro hc hp
    rw [List.dropWhile_cons]
    split
    · rename_i hx
      rcases List.mem_cons.mp hc with rfl | hm
      · rw [hp] at hx; cases hx
      · exact ih hm hp
    · exact hc

lemma pyStrip_ne_empty {s : String} {c : Char} (hc : c ∈ s.data)
    (hp : isPySpace c = false) : pyStrip s ≠ "" := by
  intro hcontra
  have hdata : (((s.data.dropWhile isPySpace).reverse.dropWhile isPySpace).reverse) = [] := by
    have h2 := congrArg String.data hcontra
    simpa [pyStrip] using h2
  have h1 : c ∈ s.data.dropWhile isPySpace := mem_dropWhile_of_neg hc hp
  have h2 : c ∈ (s.data.dropWhile isPySpace).reverse := List.mem_reverse.mpr h1
  have h3 : c ∈ (s.data.dropWhile isPySpace).reverse.dropWhile isPySpace :=
    mem_dropWhile_of_neg h2 hp
  have h4 : c ∈ ((s.data.dropWhile isPySpace).reverse.dropWhile isPySpace).reverse :=
    List.mem_reverse.mpr h3
  rw [hdata] at h4
  cases h4

lemma pyTruthyStrip_of_mem {s : String} {c : Char} (hc : c ∈ s.data)
    (hp : isPySpace c = false) : pyTruthyStrip s = true := by
  have hne : s ≠ "" := by
    intro h
    subst h
    simp at hc
  have hs := pyStrip_ne_empty hc hp
  simp [pyTruthyStrip, bne_iff_ne, hne, hs]

/- ---------------------------------------------------------------------------
C4: the two formatters produce byte-identical titles and page contents.
--------------------------------------------------------------------------- -/

/-- C4: for every input triple (display name, ISO-8601 creation timestamp,
body text), the migration path's formatter (`format_doc`) and the
repair/refill path's formatter (`format_doc_content`) produce byte-identical
document titles and byte-identical page content (including agreeing on which
timestamps are rejected). -/
theorem formatters_byte_identical (file_name created_time text_content : String) :
    (format_doc file_name created_time text_content).map (fun r => (r.1, r.2.2)) =
      format_doc_content file_name created_time text_content := by
  unfold format_doc format_doc_content
  cases fromisoformat (replaceZ created_time) <;> rfl

/- ---------------------------------------------------------------------------
C5: which calendar date do the formatters use?
--------------------------------------------------------------------------- -/

/-- C5 counterexample: for the timestamp `2026-02-10T23:30:00-05:00` (a valid
ISO-8601 timestamp with a non-zero UTC offset), the formatter titles the
document with the timestamp's wall-clock date `2026-02-10`, while the
UTC-normalized calendar date is `2026-02-11` — so the derived date is not the
UTC-normalized one. -/
theorem formatter_date_not_utc_normalized_cex :
    (format_doc "f" "2026-02-10T23:30:00-05:00" "b").map (fun r => r.1) =
        some "Daily Standup — 2026-02-10" ∧
      utcCalendarDate "2026-02-10T23:30:00-05:00" = some (2026, 2, 11) ∧
      ("Daily Standup — 2026-02-10" : String) ≠ "Daily Standup — 2026-02-11" :=
  ⟨by decide, by decide, by decide⟩

/-- C5 (amended): the Content Formatter derives the calendar date from the
timestamp's own wall-clock fields, with no UTC conversion; this coincides with
the UTC-normalized date exactly when the offset is zero (or absent, e.g. for
the `Z`-suffixed timestamps the source store emits).  The long-form rendering
writes the day of month as `Nat.repr`, which never carries a leading zero. -/
theorem formatter_wall_clock_date (file_name created_time text_content : String)
    (dt : PyDatetime) (h : fromisoformat (replaceZ created_time) = some dt) :
    (format_doc file_name created_time text_content).map (fun r => r.1) =
        some ("Daily Standup — " ++ isoDateStr dt) ∧
      (dt.offset.getD 0 = 0 →
        utcCalendarDate created_time = some (dt.year, dt.month, dt.day)) ∧
      displayDateStr dt = weekdayName (dayOfWeek dt.year dt.month dt.day) ++ ", " ++
        monthName dt.month ++ " " ++ Nat.repr dt.day ++ ", " ++ Nat.repr dt.year ∧
      (Nat.repr dt.day).front ≠ '0' := by
  obtain ⟨hy, hmo1, hmo2, hd1, hd2, hh, hmi⟩ := fromisoformat_valid h
  refine ⟨?_, ?_, rfl, ?_⟩
  · unfold format_doc
    rw [h]
    rfl
  · intro hoff
    unfold utcCalendarDate
    rw [h]
    have huc : utcDateOf dt = (dt.year, dt.month, dt.day) := by
      unfold utcDateOf
      rw [hoff]
      rw [if_neg (by omega), if_neg (by omega)]
    rw [Option.map_some', huc]
  · have hrepr : ∀ n, 1 ≤ n → n ≤ 31 → (Nat.repr n).front ≠ '0' := by
      intro n h1 h2
      interval_cases n <;> decide
    exact hrepr dt.day hd1 hd2

/-- Witness for `formatter_wall_clock_date` at the concrete Drive-style
timestamp `2026-02-10T14:00:00.000Z`. -/
theorem formatter_wall_clock_date_witness :
    fromisoformat (replaceZ "2026-02-10T14:00:00.000Z") =
        some ⟨2026, 2, 10, 14, 0, 0, some 0⟩ ∧
      ((format_doc "f" "2026-02-10T14:00:00.000Z" "b").map (fun r => r.1) =
          some ("Daily Standup — " ++ isoDateStr ⟨2026, 2, 10, 14, 0, 0, some 0⟩) ∧
        ((⟨2026, 2, 10, 14, 0, 0, some 0⟩ : PyDatetime).offset.getD 0 = 0 →
          utcCalendarDate "2026-02-10T14:00:00.000Z" = some (2026, 2, 10)) ∧
        displayDateStr ⟨2026, 2, 10, 14, 0, 0, some 0⟩ =
          weekdayName (dayOfWeek 2026 2 10) ++ ", " ++ monthName 2 ++ " " ++
            Nat.repr 10 ++ ", " ++ Nat.repr 2026 ∧
        (Nat.repr 10).front ≠ '0') :=
  ⟨by decide, formatter_wall_clock_date "f" "2026-02-10T14:00:00.000Z" "b"
    ⟨2026, 2, 10, 14, 0, 0, some 0⟩ (by decide)⟩

/- ---------------------------------------------------------------------------
Planner loop and run characterization.
--------------------------------------------------------------------------- -/

lemma plannerLoop_cons_true {env : PlannerEnv} {doc : SourceDoc} {rest : List SourceDoc}
    {proc : List String} {fs : Option (List String)}
    (hok : (processItem env doc).1 = true) :
    plannerLoop env proc fs (doc :: rest) =
      ⟨(plannerLoop env (proc.insert doc.id) (save_state (proc.insert doc.id)) rest).proc,
       (plannerLoop env (proc.insert doc.id) (save_state (proc.insert doc.id)) rest).fs,
       (plannerLoop env (proc.insert doc.id) (save_state (proc.insert doc.id)) rest).created + 1,
       (plannerLoop env (proc.insert doc.id) (save_state (proc.insert doc.id)) rest).errors,
       doc.id :: (plannerLoop env (proc.insert doc.id) (save_state (proc.insert doc.id)) rest).attempted,
       (processItem env doc).2 ++
         (plannerLoop env (proc.insert doc.id) (save_state (proc.insert doc.id)) rest).writes⟩ := by
  simp [plannerLoop, hok]

lemma plannerLoop_cons_false {env : PlannerEnv} {doc : SourceDoc} {rest : List SourceDoc}
    {proc : List String} {fs : Option (List String)}
    (hok : (processItem env doc).1 = false) :
    plannerLoop env proc fs (doc :: rest) =
      ⟨(plannerLoop env proc fs rest).proc,
       (plannerLoop env proc fs rest).fs,
       (plannerLoop env proc fs rest).created,
       (plannerLoop env proc fs rest).errors + 1,
       doc.id :: (plannerLoop env proc fs rest).attempted,
       (processItem env doc).2 ++ (plannerLoop env proc fs rest).writes⟩ := by
  simp [plannerLoop, hok]

lemma plannerLoop_spec (env : PlannerEnv) (l : List SourceDoc) :
    ∀ (proc : List String) (fs : Option (List String)),
      (∀ x, x ∈ (plannerLoop env proc fs l).proc ↔
          x ∈ proc ∨ x ∈ (l.filter fun d => (processItem env d).1).map SourceDoc.id) ∧
      ((plannerLoop env proc fs l).fs = fs ∧ (plannerLoop env proc fs l).proc = proc ∧
          l.filter (fun d => (processItem env d).1) = [] ∨
        (∀ x, x ∈ load_state (plannerLoop env proc fs l).fs ↔
          x ∈ (plannerLoop env proc fs l).proc)) ∧
      (plannerLoop env proc fs l).attempted = l.map SourceDoc.id := by
  induction l with
  | nil =>
    intro proc fs
    exact ⟨fun x => by simp [plannerLoop], Or.inl ⟨rfl, rfl, rfl⟩, rfl⟩
  | cons doc rest ih =>
    intro proc fs
    cases hok : (processItem env doc).1 with
    | true =>
      obtain ⟨ih1, ih2, ih3⟩ := ih (proc.insert doc.id) (save_state (proc.insert doc.id))
      rw [plannerLoop_cons_true hok]
      refine ⟨?_, ?_, ?_⟩
      · intro x
        simp only
        rw [ih1 x, List.mem_insert_iff]
        rw [List.filter_cons_of_pos (by simp [hok])]
        simp only [List.map_cons, List.mem_cons]
        tauto
      · right
        intro x
        simp only
        rcases ih2 with ⟨hfs, hproc, _⟩ | h2
        · rw [hfs, hproc]
          unfold load_state save_state
          simp only [Option.getD_some]
          exact mem_sortStrings x (proc.insert doc.id)
        · exact h2 x
      · simp only
        rw [ih3, List.map_cons]
    | false =>
      obtain ⟨ih1, ih2, ih3⟩ := ih proc fs
      rw [plannerLoop_cons_false hok]
      refine ⟨?_, ?_, ?_⟩
      · intro x
        simp only
        rw [ih1 x]
        rw [List.filter_cons_of_neg (by simp [hok])]
      · rcases ih2 with ⟨hfs, hproc, hfl⟩ | h2
        · left
          refine ⟨hfs, hproc, ?_⟩
          rw [List.filter_cons_of_neg (by simp [hok])]
          exact hfl
        · right
          intro x
          exact h2 x
      · simp only
        rw [ih3, List.map_cons]

lemma plannerRun_noqueue_eq (env : PlannerEnv) (dry : Bool) (docs : List SourceDoc)
    (fs0 : Option (List String))
    (htp : docs.filter (fun d => decide (d.id ∉ load_state fs0)) = []) :
    plannerRun env dry false docs fs0 = ⟨fs0, 0, docs.length, 0, [], []⟩ := by
  by_cases hde : docs = []
  · subst hde
    simp [plannerRun]
  · have hcond : ∀ a ∈ docs, a.id ∈ load_state fs0 := by
      intro a ha
      by_contra hnot
      have hmem : a ∈ docs.filter (fun d => decide (d.id ∉ load_state fs0)) :=
        List.mem_filter.mpr ⟨ha, by simpa using hnot⟩
      rw [htp] at hmem
      cases hmem
    have htp2 : docs.filter (fun d => !decide (d.id ∈ load_state fs0)) = [] := by
      rw [List.filter_eq_nil_iff]
      intro a ha
      simp [hcond a ha]
    simp [plannerRun, hde, hcond, htp2]

lemma plannerRun_main_eq (env : PlannerEnv) (docs : List SourceDoc)
    (fs0 : Option (List String)) (tp : List SourceDoc)
    (htpdef : tp = docs.filter fun d => decide (d.id ∉ load_state fs0))
    (htp : tp ≠ []) :
    plannerRun env false false docs fs0 =
      ⟨(plannerLoop env (load_state fs0) fs0 tp).fs,
       (plannerLoop env (load_state fs0) fs0 tp).created,
       docs.length - tp.length,
       (plannerLoop env (load_state fs0) fs0 tp).errors,
       (plannerLoop env (load_state fs0) fs0 tp).attempted,
       (plannerLoop env (load_state fs0) fs0 tp).writes⟩ := by
  have hde : docs ≠ [] := by
    intro h
    subst h
    simp at htpdef
    exact htp htpdef
  subst htpdef
  have hcond : ¬ ∀ a ∈ docs, a.id ∈ load_state fs0 := by
    intro hall
    apply htp
    rw [List.filter_eq_nil_iff]
    intro a ha
    simp [hall a ha]
  simp [plannerRun, hde, hcond]

lemma plannerRun_dry_eq (env : PlannerEnv) (docs : List SourceDoc)
    (fs0 : Option (List String)) :
    plannerRun env true false docs fs0 =
      ⟨fs0, 0,
       docs.length - (docs.filter fun d => decide (d.id ∉ load_state fs0)).length,
       0, [], []⟩ := by
  by_cases hde : docs = []
  · subst hde
    simp [plannerRun]
  · by_cases htp : docs.filter (fun d => decide (d.id ∉ load_state fs0)) = []
    · rw [plannerRun_noqueue_eq env true docs fs0 htp, htp]
      simp
    · simp [plannerRun, hde, htp]

/-- Combined ledger characterization of a real (non-dry, non-reset) planner
run: every queued item is attempted in order, and the persisted ledger
afterwards holds exactly the prior ids plus the ids of the items whose full
write sequence completed. -/
lemma plannerRun_ledger (env : PlannerEnv) (docs : List SourceDoc)
    (fs0 : Option (List String)) :
    (plannerRun env false false docs fs0).attempted =
        (docs.filter fun d => decide (d.id ∉ load_state fs0)).map SourceDoc.id ∧
      ∀ x, x ∈ load_state (plannerRun env false false docs fs0).fs ↔
        x ∈ load_state fs0 ∨
          x ∈ (((docs.filter fun d => decide (d.id ∉ load_state fs0)).filter
              fun d => (processItem env d).1).map SourceDoc.id) := by
  by_cases htp : docs.filter (fun d => decide (d.id ∉ load_state fs0)) = []
  · rw [plannerRun_noqueue_eq env false docs fs0 htp, htp]
    refine ⟨rfl, ?_⟩
    intro x
    simp
  · rw [plannerRun_main_eq env docs fs0 _ rfl htp]
    obtain ⟨h1, h2, h3⟩ :=
      plannerLoop_spec env (docs.filter fun d => decide (d.id ∉ load_state fs0))
        (load_state fs0) fs0
    refine ⟨h3, ?_⟩
    intro x
    simp only
    rcases h2 with ⟨hfs, _, hfl⟩ | h2
    · rw [hfs, hfl]
      simp
    · rw [h2 x, h1 x]

/- ---------------------------------------------------------------------------
C1, C2, C3: planner idempotence, partial-failure isolation, ledger
monotonicity and reset.
--------------------------------------------------------------------------- -/

/-- C2: in a real planner run every queued item (those not yet in the ledger)
is attempted, regardless of earlier items' failures, and the persisted ledger
afterwards contains exactly the prior ledger plus the ids of the items whose
full write sequence completed — a failed item contributes nothing. -/
theorem planner_failure_isolation (env : PlannerEnv) (docs : List SourceDoc)
    (fs0 : Option (List String)) :
    (plannerRun env false false docs fs0).attempted =
        (docs.filter fun d => decide (d.id ∉ load_state fs0)).map SourceDoc.id ∧
      ∀ x, x ∈ load_state (plannerRun env false false docs fs0).fs ↔
        x ∈ load_state fs0 ∨
          x ∈ (((docs.filter fun d => decide (d.id ∉ load_state fs0)).filter
              fun d => (processItem env d).1).map SourceDoc.id) :=
  plannerRun_ledger env docs fs0

/-- C1: if a planner run over `docs` succeeds on every queued item, then a
second run over the same source set against the resulting ledger issues no
target-store write at all: every item is filtered out of the work queue and
counted as skipped. -/
theorem planner_second_run_skips_all (env : PlannerEnv) (docs : List SourceDoc)
    (fs0 : Option (List String))
    (hsucc : ∀ d ∈ docs.filter (fun d => decide (d.id ∉ load_state fs0)),
      (processItem env d).1 = true) :
    (plannerRun env false false docs (plannerRun env false false docs fs0).fs).writes = [] ∧
      (plannerRun env false false docs (plannerRun env false false docs fs0).fs).created = 0 ∧
      (plannerRun env false false docs (plannerRun env false false docs fs0).fs).skipped =
        docs.length := by
  obtain ⟨hatt, hledger⟩ := plannerRun_ledger env docs fs0
  have hall : ∀ d ∈ docs, d.id ∈ load_state (plannerRun env false false docs fs0).fs := by
    intro d hd
    rw [hledger d.id]
    by_cases hin : d.id ∈ load_state fs0
    · exact Or.inl hin
    · right
      have hdtp : d ∈ docs.filter (fun d => decide (d.id ∉ load_state fs0)) :=
        List.mem_filter.mpr ⟨hd, by simpa using hin⟩
    
      have hfl : (docs.filter (fun d => decide (d.id ∉ load_state fs0))).filter
          (fun d => (processItem env d).1) =
          docs.filter (fun d => decide (d.id ∉ load_state fs0)) :=
        List.filter_eq_self.mpr (fun a ha => hsucc a ha)
      rw [hfl]
      exact List.mem_map.mpr ⟨d, hdtp, rfl⟩
  have htp2 : docs.filter
      (fun d => decide (d.id ∉ load_state (plannerRun env false false docs fs0).fs)) = [] := by
    rw [List.filter_eq_nil_iff]
    intro a ha
    simp [hall a ha]
  rw [plannerRun_noqueue_eq env false docs _ htp2]
  exact ⟨rfl, rfl, rfl⟩

/-- Concrete environment in which every planner call succeeds. -/
def envAllOk : PlannerEnv :=
  ⟨fun _ => some "body text",
   fun _ _ _ => some ⟨some (some "cu1"), none⟩,
   fun _ => some ["p0"],
   fun _ _ _ _ => true⟩

/-- Concrete one-document source set. -/
def docsOne : List SourceDoc :=
  [⟨"g1", "Daily Standup and Checkin (2026-02-10)", "2026-02-10T14:00:00.000Z"⟩]

/-- Witness for `planner_second_run_skips_all`: one Drive doc, an
all-successful environment, and an absent state file. -/
theorem planner_second_run_skips_all_witness :
    (∀ d ∈ docsOne.filter (fun d => decide (d.id ∉ load_state none)),
        (processItem envAllOk d).1 = true) ∧
      ((plannerRun envAllOk false false docsOne
          (plannerRun envAllOk false false docsOne none).fs).writes = [] ∧
        (plannerRun envAllOk false false docsOne
          (plannerRun envAllOk false false docsOne none).fs).created = 0 ∧
        (plannerRun envAllOk false false docsOne
          (plannerRun envAllOk false false docsOne none).fs).skipped = docsOne.length) :=
  ⟨by decide, planner_second_run_skips_all envAllOk docsOne none (by decide)⟩

/-- C3: the ledger is monotone under any non-reset planner run (dry or not):
the prior ids all survive; an explicit reset deletes the persisted record so
that loading yields the empty set, and loading an absent record also yields
the empty set. -/
theorem ledger_monotone_and_reset (env : PlannerEnv) (dry : Bool)
    (docs : List SourceDoc) (fs0 fs1 : Option (List String)) :
    load_state fs0 ⊆ load_state (plannerRun env dry false docs fs0).fs ∧
      load_state (reset_state fs1) = [] ∧
      load_state (none : Option (List String)) = [] := by
  refine ⟨?_, rfl, rfl⟩
  cases dry with
  | true =>
    rw [plannerRun_dry_eq]
    exact fun x hx => hx
  | false =>
    obtain ⟨_, hledger⟩ := plannerRun_ledger env docs fs0
    intro x hx
    rw [hledger x]
    exact Or.inl hx

/- ---------------------------------------------------------------------------
Reconciler branch equations and per-document lemmas.
--------------------------------------------------------------------------- -/

lemma reconcileDoc_skip (cfg : RCfg) (idx : String → Option SourceDoc)
    (dtext : String → String) (doc : TDoc) (h : doc.id ∈ dup_ids) :
    reconcileDoc cfg idx dtext doc = (doc, ⟨0, 0, 0, 0⟩, []) := by
  simp [reconcileDoc, h]

lemma reconcileDoc_nopages (cfg : RCfg) (idx : String → Option SourceDoc)
    (dtext : String → String) (doc : TDoc) (h : doc.id ∉ dup_ids)
    (hp : doc.pages = []) :
    reconcileDoc cfg idx dtext doc = (doc, ⟨0, 0, 0, 1⟩, []) := by
  simp [reconcileDoc, h, hp]

lemma reconcileDoc_ok (cfg : RCfg) (idx : String → Option SourceDoc)
    (dtext : String → String) (doc : TDoc) (p1 : Page) (rest : List Page)
    (h : doc.id ∉ dup_ids) (hp : doc.pages = p1 :: rest)
    (ht : pyTruthyStrip p1.content = true) :
    reconcileDoc cfg idx dtext doc = (doc, ⟨0, 0, 1, 0⟩, []) := by
  simp [reconcileDoc, h, hp, ht]

lemma reconcileDoc_promote (r : Bool) (idx : String → Option SourceDoc)
    (dtext : String → String) (doc : TDoc) (p1 p2 : Page) (rest2 : List Page)
    (h : doc.id ∉ dup_ids) (hp : doc.pages = p1 :: p2 :: rest2)
    (h1 : pyTruthyStrip p1.content = false) (h2 : pyTruthyStrip p2.content = true) :
    reconcileDoc ⟨false, r⟩ idx dtext doc =
      (clear_page (edit_page doc p1.id (p2.name.getD doc.name) p2.content) p2.id,
       ⟨1, 0, 0, 0⟩,
       [RCall.put doc.id p1.id (p2.name.getD doc.name) p2.content,
        RCall.put doc.id p2.id "(duplicate - see page 1)" " "]) := by
  simp [reconcileDoc, h, hp, h1, h2]

lemma reconcileDoc_promote_dry (r : Bool) (idx : String → Option SourceDoc)
    (dtext : String → String) (doc : TDoc) (p1 p2 : Page) (rest2 : List Page)
    (h : doc.id ∉ dup_ids) (hp : doc.pages = p1 :: p2 :: rest2)
    (h1 : pyTruthyStrip p1.content = false) (h2 : pyTruthyStrip p2.content = true) :
    reconcileDoc ⟨true, r⟩ idx dtext doc = (doc, ⟨1, 0, 0, 0⟩, []) := by
  simp [reconcileDoc, h, hp, h1, h2]

lemma reconcileDoc_refill_nil (cfg : RCfg) (idx : String → Option SourceDoc)
    (dtext : String → String) (doc : TDoc) (p1 : Page)
    (h : doc.id ∉ dup_ids) (hp : doc.pages = [p1])
    (h1 : pyTruthyStrip p1.content = false) :
    reconcileDoc cfg idx dtext doc = refillStep cfg idx dtext doc p1 := by
  simp [reconcileDoc, h, hp, h1]

lemma reconcileDoc_refill_cons (cfg : RCfg) (idx : String → Option SourceDoc)
    (dtext : String → String) (doc : TDoc) (p1 p2 : Page) (rest2 : List Page)
    (h : doc.id ∉ dup_ids) (hp : doc.pages = p1 :: p2 :: rest2)
    (h1 : pyTruthyStrip p1.content = false) (h2 : pyTruthyStrip p2.content = false) :
    reconcileDoc cfg idx dtext doc = refillStep cfg idx dtext doc p1 := by
  simp [reconcileDoc, h, hp, h1, h2]

lemma refillStep_norefill (dry : Bool) (idx : String → Option SourceDoc)
    (dtext : String → String) (doc : TDoc) (p1 : Page) :
    refillStep ⟨dry, false⟩ idx dtext doc p1 = (doc, ⟨0, 0, 1, 0⟩, []) := by
  simp [refillStep]

lemma refillStep_dry (r : Bool) (idx : String → Option SourceDoc)
    (dtext : String → String) (doc : TDoc) (p1 : Page) :
    ∃ c, refillStep ⟨true, r⟩ idx dtext doc p1 = (doc, c, []) := by
  unfold refillStep
  cases r with
  | false => exact ⟨⟨0, 0, 1, 0⟩, rfl⟩
  | true =>
    simp only [Bool.not_true]
    cases hex : extract_date_from_name doc.name with
    | none => exact ⟨⟨0, 0, 0, 1⟩, by simp [hex]⟩
    | some dd =>
      cases hdd : idx dd with
      | none => exact ⟨⟨0, 0, 0, 1⟩, by simp [hex, hdd]⟩
      | some ddoc => exact ⟨⟨0, 1, 0, 0⟩, by simp [hex, hdd]⟩

/-- A successfully formatted refill body has usable (non-whitespace) content:
it begins with the `#` of its heading line. -/
lemma format_content_truthy {n ct b : String} {f : String × String}
    (h : format_doc_content n ct b = some f) : pyTruthyStrip f.2 = true := by
  unfold format_doc_content at h
  cases hp : fromisoformat (replaceZ ct) with
  | none => rw [hp] at h; cases h
  | some dt =>
    rw [hp] at h
    simp only [Option.map_some'] at h
    cases h
    apply pyTruthyStrip_of_mem (c := '#')
    · show '#' ∈ (pyJoin "\n" _).data
      rw [pyJoin, pyJoin]
      simp [String.data_append]
    · decide

lemma refillStep_cases (r : Bool) (idx : String → Option SourceDoc)
    (dtext : String → String) (doc : TDoc) (p1 : Page) :
    (∃ c, refillStep ⟨false, r⟩ idx dtext doc p1 = (doc, c, []) ∧
        c.fixed = 0 ∧ c.refilled = 0) ∨
      (∃ content, refillStep ⟨false, r⟩ idx dtext doc p1 =
          (edit_page doc p1.id doc.name content, ⟨0, 1, 0, 0⟩,
           [RCall.put doc.id p1.id doc.name content]) ∧
        pyTruthyStrip content = true) := by
  unfold refillStep
  cases r with
  | false => exact Or.inl ⟨⟨0, 0, 1, 0⟩, rfl, rfl, rfl⟩
  | true =>
    simp only [Bool.not_true]
    cases hex : extract_date_from_name doc.name with
    | none => exact Or.inl ⟨⟨0, 0, 0, 1⟩, by simp [hex], rfl, rfl⟩
    | some dd =>
      cases hdd : idx dd with
      | none => exact Or.inl ⟨⟨0, 0, 0, 1⟩, by simp [hex, hdd], rfl, rfl⟩
      | some ddoc =>
        cases hfmt : format_doc_content ddoc.name ddoc.createdTime (dtext ddoc.id) with
        | none => exact Or.inl ⟨⟨0, 0, 0, 1⟩, by simp [hex, hdd, hfmt], rfl, rfl⟩
        | some f =>
          exact Or.inr ⟨f.2, by simp [hex, hdd, hfmt], format_content_truthy hfmt⟩

lemma bool_not_true_eq_false {b : Bool} (h : ¬ b = true) : b = false := by
  cases b
  · rfl
  · exact absurd rfl h

lemma reconcileDoc_dry (r : Bool) (idx : String → Option SourceDoc)
    (dtext : String → String) (doc : TDoc) :
    (reconcileDoc ⟨true, r⟩ idx dtext doc).1 = doc ∧
      (reconcileDoc ⟨true, r⟩ idx dtext doc).2.2 = [] := by
  by_cases hdup : doc.id ∈ dup_ids
  · rw [reconcileDoc_skip _ _ _ _ hdup]
    exact ⟨rfl, rfl⟩
  · cases hp : doc.pages with
    | nil =>
      rw [reconcileDoc_nopages _ _ _ _ hdup hp]
      exact ⟨rfl, rfl⟩
    | cons p1 rest =>
      by_cases h1 : pyTruthyStrip p1.content = true
      · rw [reconcileDoc_ok _ _ _ _ _ _ hdup hp h1]
        exact ⟨rfl, rfl⟩
      · have h1f : pyTruthyStrip p1.content = false := bool_not_true_eq_false h1
        cases rest with
        | nil =>
          rw [reconcileDoc_refill_nil _ _ _ _ _ hdup hp h1f]
          obtain ⟨c, hc⟩ := refillStep_dry r idx dtext doc p1
          rw [hc]
          exact ⟨rfl, rfl⟩
        | cons p2 rest2 =>
          by_cases h2 : pyTruthyStrip p2.content = true
          · rw [reconcileDoc_promote_dry r idx dtext doc p1 p2 rest2 hdup hp h1f h2]
            exact ⟨rfl, rfl⟩
          · have h2f : pyTruthyStrip p2.content = false := bool_not_true_eq_false h2
            rw [reconcileDoc_refill_cons _ _ _ _ _ _ _ hdup hp h1f h2f]
            obtain ⟨c, hc⟩ := refillStep_dry r idx dtext doc p1
            rw [hc]
            exact ⟨rfl, rfl⟩

lemma reconcileDoc_twice (r : Bool) (idx : String → Option SourceDoc)
    (dtext : String → String) (doc : TDoc)
    (hwf : (doc.pages.map Page.id).Nodup) :
    (reconcileDoc ⟨false, r⟩ idx dtext
        ((reconcileDoc ⟨false, r⟩ idx dtext doc).1)).2.2 = [] ∧
      (reconcileDoc ⟨false, r⟩ idx dtext
        ((reconcileDoc ⟨false, r⟩ idx dtext doc).1)).2.1.fixed = 0 ∧
      (reconcileDoc ⟨false, r⟩ idx dtext
        ((reconcileDoc ⟨false, r⟩ idx dtext doc).1)).2.1.refilled = 0 := by
  by_cases hdup : doc.id ∈ dup_ids
  · rw [reconcileDoc_skip _ _ _ _ hdup]
    dsimp only
    rw [reconcileDoc_skip _ _ _ _ hdup]
    exact ⟨rfl, rfl, rfl⟩
  · cases hp : doc.pages with
    | nil =>
      rw [reconcileDoc_nopages _ _ _ _ hdup hp]
      dsimp only
      rw [reconcileDoc_nopages _ _ _ _ hdup hp]
      exact ⟨rfl, rfl, rfl⟩
    | cons p1 rest =>
      by_cases h1 : pyTruthyStrip p1.content = true
      · rw [reconcileDoc_ok _ _ _ _ _ _ hdup hp h1]
        dsimp only
        rw [reconcileDoc_ok _ _ _ _ _ _ hdup hp h1]
        exact ⟨rfl, rfl, rfl⟩
      · have h1f : pyTruthyStrip p1.content = false := bool_not_true_eq_false h1
        cases rest with
        | nil =>
          rw [reconcileDoc_refill_nil _ _ _ _ _ hdup hp h1f]
          rcases refillStep_cases r idx dtext doc p1 with ⟨c, hc, hcf, hcr⟩ |
            ⟨content, hc, hct⟩
          · rw [hc]
            dsimp only
            rw [reconcileDoc_refill_nil _ _ _ _ _ hdup hp h1f, hc]
            exact ⟨rfl, hcf, hcr⟩
          · rw [hc]
            dsimp only
            have hpages : (edit_page doc p1.id doc.name content).pages =
                [(⟨p1.id, some doc.name, content⟩ : Page)] := by
              simp [edit_page, hp]
            rw [reconcileDoc_ok ⟨false, r⟩ idx dtext
              (edit_page doc p1.id doc.name content) _ _ hdup hpages hct]
            exact ⟨rfl, rfl, rfl⟩
        | cons p2 rest2 =>
          by_cases h2 : pyTruthyStrip p2.content = true
          · -- promotion then AlreadyOk
            have hne12 : p1.id ≠ p2.id := by
              intro hceq
              rw [hp] at hwf
              simp [hceq] at hwf
            rw [reconcileDoc_promote r idx dtext doc p1 p2 rest2 hdup hp h1f h2]
            dsimp only
            have hpages : (clear_page
                (edit_page doc p1.id (p2.name.getD doc.name) p2.content) p2.id).pages =
                (⟨p1.id, some (p2.name.getD doc.name), p2.content⟩ : Page) ::
                  ((p2 :: rest2).map (fun p =>
                      if p.id = p1.id
                      then { p with name := some (p2.name.getD doc.name),
                                    content := p2.content }
                      else p)).map
                    (fun p => if p.id = p2.id
                      then { p with name := some "(duplicate - see page 1)",
                                    content := " " }
                      else p) := by
              simp [clear_page, edit_page, hp, hne12]
            rw [reconcileDoc_ok ⟨false, r⟩ idx dtext
              (clear_page (edit_page doc p1.id (p2.name.getD doc.name) p2.content) p2.id)
              _ _ hdup hpages h2]
            exact ⟨rfl, rfl, rfl⟩
          · have h2f : pyTruthyStrip p2.content = false := bool_not_true_eq_false h2
            rw [reconcileDoc_refill_cons _ _ _ _ _ _ _ hdup hp h1f h2f]
            rcases refillStep_cases r idx dtext doc p1 with ⟨c, hc, hcf, hcr⟩ |
              ⟨content, hc, hct⟩
            · rw [hc]
              dsimp only
              rw [reconcileDoc_refill_cons _ _ _ _ _ _ _ hdup hp h1f h2f, hc]
              exact ⟨rfl, hcf, hcr⟩
            · rw [hc]
              dsimp only
              have hpages : (edit_page doc p1.id doc.name content).pages =
                  (⟨p1.id, some doc.name, content⟩ : Page) ::
                    ((p2 :: rest2).map fun p =>
                      if p.id = p1.id
                      then { p with name := some doc.name, content := content }
                      else p) := by
                simp [edit_page, hp]
              rw [reconcileDoc_ok ⟨false, r⟩ idx dtext
                (edit_page doc p1.id doc.name content) _ _ hdup hpages hct]
              exact ⟨rfl, rfl, rfl⟩

lemma reconcileRun_docs (cfg : RCfg) (idx : String → Option SourceDoc)
    (dtext : String → String) :
    ∀ docs : List TDoc, (reconcileRun cfg idx dtext docs).docs =
      docs.map (fun d => (reconcileDoc cfg idx dtext d).1) := by
  intro docs
  induction docs with
  | nil => rfl
  | cons d rest ih => simp [reconcileRun, ih]

lemma reconcileRun_all (cfg : RCfg) (idx : String → Option SourceDoc)
    (dtext : String → String) :
    ∀ docs : List TDoc,
      (∀ d ∈ docs, (reconcileDoc cfg idx dtext d).2.2 = [] ∧
        (reconcileDoc cfg idx dtext d).2.1.fixed = 0 ∧
        (reconcileDoc cfg idx dtext d).2.1.refilled = 0) →
      (reconcileRun cfg idx dtext docs).trace = [] ∧
        (reconcileRun cfg idx dtext docs).counters.fixed = 0 ∧
        (reconcileRun cfg idx dtext docs).counters.refilled = 0 := by
  intro docs
  induction docs with
  | nil => exact fun _ => ⟨rfl, rfl, rfl⟩
  | cons d rest ih =>
    intro H
    obtain ⟨h1, h2, h3⟩ := H d (List.mem_cons_self d rest)
    obtain ⟨i1, i2, i3⟩ := ih (fun x hx => H x (List.mem_cons_of_mem d hx))
    refine ⟨?_, ?_, ?_⟩ <;> simp [reconcileRun, addC, h1, h2, h3, i1, i2, i3]

lemma reconcileRun_dry (r : Bool) (idx : String → Option SourceDoc)
    (dtext : String → String) :
    ∀ tdocs : List TDoc, (reconcileRun ⟨true, r⟩ idx dtext tdocs).docs = tdocs ∧
      (reconcileRun ⟨true, r⟩ idx dtext tdocs).trace = [] := by
  intro tdocs
  induction tdocs with
  | nil => exact ⟨rfl, rfl⟩
  | cons d rest ih =>
    obtain ⟨h1, h2⟩ := reconcileDoc_dry r idx dtext d
    exact ⟨by simp [reconcileRun, h1, ih.1], by simp [reconcileRun, h2, ih.2]⟩

/- ---------------------------------------------------------------------------
C6: promotion behaviour (corrected: page 1 must have non-whitespace content).
--------------------------------------------------------------------------- -/

/-- A target doc with empty page 0 and a non-empty but whitespace-only
page 1. -/
def tdocWsPage1 : TDoc :=
  ⟨"docA", "Daily Standup — 2026-02-20",
   [⟨"p0", some "n0", ""⟩, ⟨"p1", some "n1", " "⟩]⟩

/-- C6 counterexample: this document has empty page-0 content and a page 1
with non-empty content (`" "`), yet the non-dry-run Reconciler issues no
mutating call at all and leaves the document unchanged (the code additionally
requires page 1's content to be non-whitespace). -/
theorem promotion_requires_usable_page1_cex :
    reconcileDoc ⟨false, false⟩ (fun _ => none) (fun _ => "") tdocWsPage1 =
        (tdocWsPage1, ⟨0, 0, 1, 0⟩, []) ∧
      tdocWsPage1.pages = [⟨"p0", some "n0", ""⟩, ⟨"p1", some "n1", " "⟩] ∧
      (" " : String) ≠ "" :=
  ⟨by decide, rfl, by decide⟩

/-- C6 (amended): for every target document (not in the known-duplicate list)
whose page-0 content is empty or whitespace-only and whose page 1 exists with
content that is non-empty after stripping whitespace, the non-dry-run
Reconciler first PUTs page 1's content and name into page 0 and then
neutralizes page 1 with the duplicate-marker name and a single-whitespace
body, in that order. -/
theorem promotion_writes_then_neutralizes (r : Bool)
    (idx : String → Option SourceDoc) (dtext : String → String) (doc : TDoc)
    (p1 p2 : Page) (rest2 : List Page)
    (hdup : doc.id ∉ dup_ids) (hp : doc.pages = p1 :: p2 :: rest2)
    (h1 : pyTruthyStrip p1.content = false) (h2 : pyTruthyStrip p2.content = true) :
    reconcileDoc ⟨false, r⟩ idx dtext doc =
      (clear_page (edit_page doc p1.id (p2.name.getD doc.name) p2.content) p2.id,
       ⟨1, 0, 0, 0⟩,
       [RCall.put doc.id p1.id (p2.name.getD doc.name) p2.content,
        RCall.put doc.id p2.id "(duplicate - see page 1)" " "]) :=
  reconcileDoc_promote r idx dtext doc p1 p2 rest2 hdup hp h1 h2

/-- A target doc in the promotion state: blank page 0, usable page 1. -/
def tdocPromote : TDoc :=
  ⟨"docB", "Daily Standup — 2026-02-21",
   [⟨"p0", some "n0", ""⟩,
    ⟨"p1", some "Daily Standup — 2026-02-21", "# standup notes"⟩]⟩

/-- Witness for `promotion_writes_then_neutralizes` on a concrete document. -/
theorem promotion_writes_then_neutralizes_witness :
    (tdocPromote.id ∉ dup_ids ∧
        tdocPromote.pages = [⟨"p0", some "n0", ""⟩,
          ⟨"p1", some "Daily Standup — 2026-02-21", "# standup notes"⟩] ∧
        pyTruthyStrip ("" : String) = false ∧
        pyTruthyStrip ("# standup notes") = true) ∧
      reconcileDoc ⟨false, false⟩ (fun _ => none) (fun _ => "") tdocPromote =
        (clear_page (edit_page tdocPromote "p0"
            ((some "Daily Standup — 2026-02-21").getD tdocPromote.name)
            "# standup notes") "p1",
         ⟨1, 0, 0, 0⟩,
         [RCall.put "docB" "p0"
            ((some "Daily Standup — 2026-02-21").getD tdocPromote.name)
            "# standup notes",
          RCall.put "docB" "p1" "(duplicate - see page 1)" " "]) :=
  ⟨⟨by decide, rfl, by decide, by decide⟩,
   promotion_writes_then_neutralizes false (fun _ => none) (fun _ => "")
     tdocPromote ⟨"p0", some "n0", ""⟩
     ⟨"p1", some "Daily Standup — 2026-02-21", "# standup notes"⟩ []
     (by decide) rfl (by decide) (by decide)⟩

/- ---------------------------------------------------------------------------
C7: reconciler convergence.
--------------------------------------------------------------------------- -/

/-- C7: under well-formed page listings (distinct page ids within each
document), running the non-dry Reconciler a second time over the population
produced by a first run issues no mutating call and counts nothing as fixed
or refilled: every document remediated by the first run has usable page-0
content afterwards and classifies as already-ok. -/
theorem reconciler_convergence (r : Bool) (idx : String → Option SourceDoc)
    (dtext : String → String) (docs : List TDoc)
    (hwf : ∀ d ∈ docs, (d.pages.map Page.id).Nodup) :
    (reconcileRun ⟨false, r⟩ idx dtext
        ((reconcileRun ⟨false, r⟩ idx dtext docs).docs)).trace = [] ∧
      (reconcileRun ⟨false, r⟩ idx dtext
        ((reconcileRun ⟨false, r⟩ idx dtext docs).docs)).counters.fixed = 0 ∧
      (reconcileRun ⟨false, r⟩ idx dtext
        ((reconcileRun ⟨false, r⟩ idx dtext docs).docs)).counters.refilled = 0 := by
  rw [reconcileRun_docs]
  refine reconcileRun_all _ _ _ _ ?_
  intro d2 hd2
  obtain ⟨d, hd, rfl⟩ := List.mem_map.mp hd2
  exact reconcileDoc_twice r idx dtext d (hwf d hd)

/-- Witness for `reconciler_convergence` on a one-document population in the
promotion state. -/
theorem reconciler_convergence_witness :
    (∀ d ∈ [tdocPromote], (d.pages.map Page.id).Nodup) ∧
      ((reconcileRun ⟨false, false⟩ (fun _ => none) (fun _ => "")
          ((reconcileRun ⟨false, false⟩ (fun _ => none) (fun _ => "")
            [tdocPromote]).docs)).trace = [] ∧
        (reconcileRun ⟨false, false⟩ (fun _ => none) (fun _ => "")
          ((reconcileRun ⟨false, false⟩ (fun _ => none) (fun _ => "")
            [tdocPromote]).docs)).counters.fixed = 0 ∧
        (reconcileRun ⟨false, false⟩ (fun _ => none) (fun _ => "")
          ((reconcileRun ⟨false, false⟩ (fun _ => none) (fun _ => "")
            [tdocPromote]).docs)).counters.refilled = 0) :=
  ⟨by decide, reconciler_convergence false (fun _ => none) (fun _ => "")
    [tdocPromote] (by decide)⟩

/- ---------------------------------------------------------------------------
C8: dry-run frame property for both tools.
--------------------------------------------------------------------------- -/

/-- C8: in dry-run mode the Planner issues no target-store write, attempts no
item, and leaves the persisted ledger untouched; and the dry-run Reconciler
issues no mutating call and leaves every document unchanged. -/
theorem dry_run_frame (env : PlannerEnv) (docs : List SourceDoc)
    (fs0 : Option (List String)) (r : Bool) (idx : String → Option SourceDoc)
    (dtext : String → String) (tdocs : List TDoc) :
    (plannerRun env true false docs fs0).writes = [] ∧
      (plannerRun env true false docs fs0).attempted = [] ∧
      (plannerRun env true false docs fs0).fs = fs0 ∧
      (reconcileRun ⟨true, r⟩ idx dtext tdocs).trace = [] ∧
      (reconcileRun ⟨true, r⟩ idx dtext tdocs).docs = tdocs := by
  rw [plannerRun_dry_eq]
  exact ⟨rfl, rfl, rfl, (reconcileRun_dry r idx dtext tdocs).2,
    (reconcileRun_dry r idx dtext tdocs).1⟩

/- ---------------------------------------------------------------------------
C9: manual-refill documents (corrected: they are counted as already-ok).
--------------------------------------------------------------------------- -/

/-- A target doc with a single, empty page and refill unavailable. -/
def tdocManual : TDoc :=
  ⟨"docC", "Daily Standup — 2026-02-22", [⟨"p0", some "n0", ""⟩]⟩

/-- C9 counterexample: with refill disabled, a document whose only page is
empty (so it is not `AlreadyOk`, no page has usable content) is left alone
but contributes 1 to the `already_ok` counter — so the already-ok tally does
not count exactly the documents with non-empty page 0. -/
theorem manual_refill_counted_already_ok_cex :
    reconcileDoc ⟨false, false⟩ (fun _ => none) (fun _ => "") tdocManual =
        (tdocManual, ⟨0, 0, 1, 0⟩, []) ∧
      (∀ p ∈ tdocManual.pages, pyTruthyStrip p.content = false) :=
  ⟨by decide, by decide⟩

/-- C9 (amended): with refill disabled, a document (not in the known-duplicate
list) whose page 0 is blank and whose page 1, if any, is also blank is
reported and left untouched — no mutating call, no doc change — but it is
tallied in the `already_ok` counter together with the genuinely already-ok
documents, not in a distinct counter. -/
theorem manual_refill_no_action (dry : Bool) (idx : String → Option SourceDoc)
    (dtext : String → String) (doc : TDoc) (p1 : Page) (rest : List Page)
    (hdup : doc.id ∉ dup_ids) (hp : doc.pages = p1 :: rest)
    (h1 : pyTruthyStrip p1.content = false)
    (hrest : ∀ p2 ∈ rest.take 1, pyTruthyStrip p2.content = false) :
    reconcileDoc ⟨dry, false⟩ idx dtext doc = (doc, ⟨0, 0, 1, 0⟩, []) := by
  cases rest with
  | nil =>
    rw [reconcileDoc_refill_nil _ _ _ _ _ hdup hp h1, refillStep_norefill]
  | cons p2 rest2 =>
    have h2 := hrest p2 (by simp)
    rw [reconcileDoc_refill_cons _ _ _ _ _ _ _ hdup hp h1 h2, refillStep_norefill]

/-- A second single-page blank document, page 0 whitespace-only. -/
def tdocManual2 : TDoc :=
  ⟨"docD", "Daily Standup — 2026-02-23", [⟨"p0", none, " "⟩]⟩

/-- Witness for `manual_refill_no_action` on a concrete document. -/
theorem manual_refill_no_action_witness :
    (tdocManual2.id ∉ dup_ids ∧
        tdocManual2.pages = [⟨"p0", none, " "⟩] ∧
        pyTruthyStrip (" " : String) = false ∧
        (∀ p2 ∈ ([] : List Page).take 1, pyTruthyStrip p2.content = false)) ∧
      reconcileDoc ⟨false, false⟩ (fun _ => none) (fun _ => "") tdocManual2 =
        (tdocManual2, ⟨0, 0, 1, 0⟩, []) :=
  ⟨⟨by decide, rfl, by decide, by decide⟩,
   manual_refill_no_action false (fun _ => none) (fun _ => "") tdocManual2
     ⟨"p0", none, " "⟩ [] (by decide) rfl (by decide) (by decide)⟩

/- ---------------------------------------------------------------------------
C10: the date index maps each date to the last same-date Drive doc listed.
--------------------------------------------------------------------------- -/

lemma build_index_aux (k : String) :
    ∀ (docs : List SourceDoc) (g f : String → Option SourceDoc),
      docs.foldlM
          (fun idx d => (isoDateOfDoc d).map
            fun kk => fun q => if q = kk then some d else idx q) g = some f →
      f k = ((docs.filter fun d => decide (isoDateOfDoc d = some k)).getLast?).or
        (g k) := by
  intro docs
  induction docs using List.reverseRecOn with
  | nil =>
    intro g f h
    simp only [List.foldlM_nil] at h
    cases h
    simp
  | append_singleton l d ih =>
    intro g f h
    rw [List.foldlM_append] at h
    cases hx : l.foldlM
        (fun idx d => (isoDateOfDoc d).map
          fun kk => fun q => if q = kk then some d else idx q) g with
    | none =>
      rw [hx] at h
      simp at h
    | some g2 =>
      rw [hx] at h
      simp only [Option.some_bind, List.foldlM_cons, List.foldlM_nil] at h
      cases hiso : isoDateOfDoc d with
      | none =>
        rw [hiso] at h
        simp at h
      | some kk =>
        rw [hiso] at h
        simp only [Option.map_some', Option.some_bind, Option.pure_def] at h
        cases h
        rw [List.filter_append]
        by_cases hpd : isoDateOfDoc d = some k
        · have hkk : kk = k := by
            rw [hiso] at hpd
            exact (Option.some_inj.mp hpd)
          subst hkk
          have hfd : List.filter (fun d => decide (isoDateOfDoc d = some kk)) [d] = [d] := by
            simp [hpd]
          rw [hfd, List.getLast?_concat]
          simp
        · have hkk : k ≠ kk := by
            intro hceq
            subst hceq
            exact hpd hiso
          have hfd : List.filter (fun d => decide (isoDateOfDoc d = some k)) [d] = [] := by
            simp [hpd]
          rw [hfd, List.append_nil]
          simp only [if_neg hkk]
          exact ih g g2 hx

/-- C10: when every listed Drive doc's `createdTime` parses (the index builds
without an exception), the date index maps a date `k` to exactly the last doc
in listing order whose formatted creation date is `k` — earlier same-date
docs are shadowed; a refill for `k` therefore always uses that last doc. -/
theorem drive_index_last_wins (docs : List SourceDoc) (k : String)
    (h : (build_drive_date_index docs).isSome = true) :
    ((build_drive_date_index docs).getD (fun _ => none)) k =
      (docs.filter fun d => decide (isoDateOfDoc d = some k)).getLast? := by
  obtain ⟨f, hf⟩ := Option.isSome_iff_exists.mp h
  rw [hf]
  simp only [Option.getD_some]
  have haux := build_index_aux k docs (fun _ => none) f (by
    unfold build_drive_date_index at hf
    exact hf)
  rw [haux, Option.or_none]

/-- Two Drive docs sharing the creation date 2026-02-18. -/
def driveDocsW : List SourceDoc :=
  [⟨"gA", "Daily Standup and Checkin", "2026-02-18T09:00:00.000Z"⟩,
   ⟨"gB", "Daily Standup and Checkin (1)", "2026-02-18T17:00:00.000Z"⟩]

/-- Witness for `drive_index_last_wins`: with two docs dated 2026-02-18, the
index resolves that date to the second (last-listed) doc. -/
theorem drive_index_last_wins_witness :
    (build_drive_date_index driveDocsW).isSome = true ∧
      ((build_drive_date_index driveDocsW).getD (fun _ => none)) "2026-02-18" =
        (driveDocsW.filter fun d =>
          decide (isoDateOfDoc d = some "2026-02-18")).getLast? ∧
      (driveDocsW.filter fun d =>
          decide (isoDateOfDoc d = some "2026-02-18")).getLast? =
        some ⟨"gB", "Daily Standup and Checkin (1)", "2026-02-18T17:00:00.000Z"⟩ :=
  ⟨by decide, drive_index_last_wins driveDocsW "2026-02-18" (by decide), by decide⟩
